import Mathlib

/-!
# Verification of the Internal-Link-Finder core pipeline

Shallow embedding of the core components of the repository:

* `GSCDataProcessor.extract_top_keywords_by_url` (src/core/gsc_processor.py)
* `SimilarityEngine.compute_related_pages` (src/core/similarity_engine.py)
* `PerformanceAnalyzer.score_opportunities` (src/analyzers/performance_analyzer.py)
* `EnhancedLinkAnalyzer.analyze_with_performance_data` and `_link_status`
  (src/analyzers/link_analyzer.py)

Pandas data frames are modelled as Lean lists of records, dictionaries as
association lists (insertion-ordered, unique keys) or lookup functions, and
float arithmetic as exact rational arithmetic over `ℚ`.
-/

/-! ## GSCDataProcessor (src/core/gsc_processor.py)

A row of the `gsc_data` frame: one performance record per (page, query) pair.
Clicks and impressions are non-negative integers (`int(...)` of GSC API data,
see `_cached_gsc_query`). -/

structure GSCRecord where
  page : String
  query : String
  clicks : Nat
  impressions : Nat
deriving Repr, DecidableEq

/-- Dense rank (descending) of value `v` within the multiset `vs`:
`pandas.Series.rank("dense", ascending=False)` assigns rank 1 to the largest
distinct value, 2 to the next distinct value, and so on; equal values share a
rank.  Equivalently the rank of `v` is one plus the number of distinct values
of `vs` strictly greater than `v`. -/
def denseRankDesc (vs : List Nat) (v : Nat) : Nat :=
  ((vs.filter (fun w => v < w)).dedup).length + 1

/-- The clicks column of the group of records sharing `r`'s page
(`gsc_data.groupby("page")["clicks"]`). -/
def pageClicks (data : List GSCRecord) (p : String) : List Nat :=
  (data.filter (fun r => r.page = p)).map (·.clicks)

/-- The impressions column of the group of records sharing `r`'s page. -/
def pageImpressions (data : List GSCRecord) (p : String) : List Nat :=
  (data.filter (fun r => r.page = p)).map (·.impressions)

/-- `gsc_data.groupby("page")["clicks"].rank("dense", ascending=False)`
evaluated at record `r`: the dense rank of `r.clicks` among the clicks of the
records of the same page. -/
def clicksRank (data : List GSCRecord) (r : GSCRecord) : Nat :=
  denseRankDesc (pageClicks data r.page) r.clicks

/-- Same for the impressions column (the fallback branch, line 72 of
gsc_processor.py). -/
def impressionsRank (data : List GSCRecord) (r : GSCRecord) : Nat :=
  denseRankDesc (pageImpressions data r.page) r.impressions

/-- Embedding of `GSCDataProcessor.extract_top_keywords_by_url`
(gsc_processor.py lines 65-77).  The returned Python dict maps each page that
owns a selected record to the list of its selected queries in original row
order, dropping null/empty query strings; we model the dict by its per-page
lookup (a page with no selected record maps to `[]`, matching a miss).  The
selection: records whose per-page dense clicks-rank is at most `top_n`
(`top_clicks`); if that selection is empty, records whose per-page dense
impressions-rank is at most `top_n`. -/
def extract_top_keywords_by_url (data : List GSCRecord) (top_n : Nat) :
    String → List String :=
  let top_clicks := data.filter (fun r => clicksRank data r ≤ top_n)
  let sel := if top_clicks.isEmpty
    then data.filter (fun r => impressionsRank data r ≤ top_n)
    else top_clicks
  fun page =>
    ((sel.filter (fun r => r.page = page)).map (·.query)).filter (fun q => q ≠ "")

/-- Written from the spec's words, for comparison with the code (claim about
the all-zero-clicks fallback): per-page keyword selection obtained by
dense-ranking queries by impressions descending with the same top-N rule. -/
def specImpressionsSelection (data : List GSCRecord) (top_n : Nat) :
    String → List String :=
  fun page =>
    (((data.filter (fun r => impressionsRank data r ≤ top_n)).filter
        (fun r => r.page = page)).map (·.query)).filter (fun q => q ≠ "")

/-! ## SimilarityEngine (src/core/similarity_engine.py)

`compute_related_pages` builds the cosine-similarity matrix
`sims = mat @ mat.T` of the epsilon-normalized embedding vectors
(`v / (np.linalg.norm(v) + 1e-8)`), then for each page index `i` walks
`np.argsort(-sims[i])`, skipping `i` itself, collecting URLs until `top_k`
are gathered.

The similarity matrix entries are floating-point reals involving square
roots, so we abstract the matrix as a parameter `sim : Nat → Nat → ℚ`
(index-based, `sim i j` = similarity of pages `i` and `j`); the selection
logic proved about below is independent of the matrix values.

`np.argsort(-sim_row)` returns some permutation of the indices ordered by
descending similarity.  With the default sort kind (quicksort/introsort)
NumPy guarantees *no* particular order among tied values; to keep the
embedding executable the model fixes one concrete such permutation — ties
going to the smaller index.  This tie rule is a modelling choice, not a
NumPy guarantee, so the theorems proved below about `compute_related_pages`
are only ones whose conclusions (list length, self-exclusion, key
membership) are invariant under which tied permutation argsort returns. -/

/-- Comparator fixing the concrete permutation used to model
`np.argsort(-sim_row)`: `a` before `b` iff `a`'s similarity is larger, or
tied and `a` is the smaller index (the tie case is the model's choice; see
the section comment).  A total order on indices, so the sorted permutation
of the index range is unique and independent of the sorting algorithm. -/
def argsortRel (simRow : Nat → ℚ) (a b : Nat) : Prop :=
  simRow b < simRow a ∨ (simRow a = simRow b ∧ a ≤ b)

instance (simRow : Nat → ℚ) : DecidableRel (argsortRel simRow) :=
  fun _ _ => inferInstanceAs (Decidable (_ ∨ _))

/-- `np.argsort(-sim_row)` over indices `0..n-1`. -/
def argsortDesc (n : Nat) (simRow : Nat → ℚ) : List Nat :=
  (List.range n).insertionSort (argsortRel simRow)

/-- The candidate-collection loop of `compute_related_pages` (lines 19-25):
walk the sorted index list, skip the page's own index `i`, append
`urls[j]`, and break as soon as the accumulated length reaches `top_k`
(the length check runs *after* the append).  `len` is the current length of
the accumulator. -/
def selectLoop (urls : List String) (i : Nat) (top_k : Nat) :
    List Nat → Nat → List String
  | [], _ => []
  | j :: rest, len =>
    if j = i then selectLoop urls i top_k rest len
    else
      let u := urls.getD j ""
      if top_k ≤ len + 1 then [u]
      else u :: selectLoop urls i top_k rest (len + 1)

/-- Embedding of `SimilarityEngine.compute_related_pages`
(similarity_engine.py lines 8-27).  `urls` is the key list of the embeddings
dict (insertion order, keys distinct); `sim` abstracts the similarity matrix
`sims`.  The result dict is the association list pairing each URL with its
candidate list. -/
def compute_related_pages (urls : List String) (sim : Nat → Nat → ℚ)
    (top_k : Nat) : List (String × List String) :=
  urls.enum.map (fun iu =>
    (iu.2, selectLoop urls iu.1 top_k (argsortDesc urls.length (sim iu.1)) 0))

/-! ## PerformanceAnalyzer (src/analyzers/performance_analyzer.py)

A data-frame row entering `score_opportunities`: the `Impressions` and
`Clicks` columns (floats after `astype(float).fillna(0)`, modelled as `ℚ`)
plus the remaining columns, opaque to the scorer, modelled as an association
list of column name to cell text. -/

structure PerfRow where
  impressions : ℚ
  clicks : ℚ
  rest : List (String × String)
deriving Repr, DecidableEq

/-- An output row of `score_opportunities`: `x = df.copy()` keeps every
original column unchanged, and exactly two columns are added, `OppScore` and
`Implementation Priority`. -/
structure ScoredRow where
  row : PerfRow
  oppScore : ℚ
  priority : String
deriving Repr, DecidableEq

/-- Line 14: `ctr = (clk / imp.replace(0, np.nan)).fillna(0.0)` — a zero
impression count becomes NaN (modelled as `none`), the division maps over
it, and `fillna` turns the NaN back into 0. -/
def ctrOf (r : PerfRow) : ℚ :=
  ((if r.impressions = 0 then none else some r.impressions).map
    (fun m => r.clicks / m)).getD 0

/-- Line 15: `opp = (imp - clk).clip(lower=0)`. -/
def oppOf (r : PerfRow) : ℚ :=
  max (r.impressions - r.clicks) 0

/-- `s.max()` of a pandas Series: the maximum of a nonempty column (the
scorer returns early on an empty frame, so the empty case is unreachable;
we give it the junk value 0). -/
def colMax (xs : List ℚ) : ℚ :=
  match xs with
  | [] => 0
  | x :: rest => rest.foldl max x

/-- Lines 17-19: `norm(s) = s / s.max() if s.max() > 0 else s`, evaluated at
one cell `v` of the column `xs`. -/
def normCol (xs : List ℚ) (v : ℚ) : ℚ :=
  if 0 < colMax xs then v / colMax xs else v

/-- Line 21: `pd.cut(score, bins=[-0.01, 0.33, 0.66, 1.0],
labels=["Low","Medium","High"])`; a value outside every bin gets NaN,
modelled as `""`. -/
def priorityOf (v : ℚ) : String :=
  if -1/100 < v ∧ v ≤ 33/100 then "Low"
  else if 33/100 < v ∧ v ≤ 66/100 then "Medium"
  else if 66/100 < v ∧ v ≤ 1 then "High"
  else ""

/-- Embedding of `PerformanceAnalyzer.score_opportunities`
(performance_analyzer.py lines 8-22).  An empty frame is returned unchanged;
otherwise each row gets `OppScore = 0.6 * norm(opp) + 0.4 * (1 - norm(ctr))`
and the priority tier of that score. -/
def score_opportunities (rows : List PerfRow) : List ScoredRow :=
  if rows.isEmpty then []
  else
    let opps := rows.map oppOf
    let ctrs := rows.map ctrOf
    rows.map (fun r =>
      let s := 3/5 * normCol opps (oppOf r) + 2/5 * (1 - normCol ctrs (ctrOf r))
      ⟨r, s, priorityOf s⟩)

/-- Written from the spec's words, for comparison with the code (claim that
the columns are *min-max* normalized): standard min-max normalization
`(v - min) / (max - min)` over the column, identity when the maximum is 0. -/
def specMinMaxNorm (xs : List ℚ) (v : ℚ) : ℚ :=
  if colMax xs = 0 then v
  else (v - xs.foldr min (colMax xs)) / (colMax xs - xs.foldr min (colMax xs))

/-- The opportunity scores the spec's min-max reading would produce, for
comparison with `score_opportunities`. -/
def specMinMaxScores (rows : List PerfRow) : List ℚ :=
  let opps := rows.map oppOf
  let ctrs := rows.map ctrOf
  rows.map (fun r =>
    3/5 * specMinMaxNorm opps (oppOf r) + 2/5 * (1 - specMinMaxNorm ctrs (ctrOf r)))

/-! ## EnhancedLinkAnalyzer (src/analyzers/link_analyzer.py) -/

/-- A row of `gsc_metrics_df` (produced by `calculate_url_metrics`). -/
structure MetricRow where
  page : String
  url_queries_count : Int
  url_clicks : Int
  url_impressions : Int
deriving Repr, DecidableEq

/-- The per-page metrics value stored in the `metrics` dict. -/
structure PageMetrics where
  queries : Int
  clicks : Int
  impressions : Int
deriving Repr, DecidableEq

/-- Lines 15-28 of link_analyzer.py: the `metrics` dict maps each stripped
page string of `gsc_metrics_df` to its counts (a later row overwrites an
earlier one with the same key, hence `getLast?`), and `metrics.get(url,
zeros)` defaults misses to zeros.  When the frame is empty the code instead
pre-fills zeros for every related key; `get` of that dict returns the same
zeros, so one lookup covers both branches. -/
def metricsLookup (gsc : List MetricRow) (url : String) : PageMetrics :=
  match (gsc.filter (fun r => r.page.trim = url)).getLast? with
  | some r => ⟨r.url_queries_count, r.url_clicks, r.url_impressions⟩
  | none => ⟨0, 0, 0⟩

/-- Line 32: `search_volume_map.get(kw.lower(), search_volume_map.get(kw, 0))`. -/
def volLookup (svm : List (String × Int)) (kw : String) : Int :=
  match svm.lookup kw.toLower with
  | some v => v
  | none => (svm.lookup kw).getD 0

/-- Python `max` over a nonempty list (`[]` is unreachable, junk value 0). -/
def listMaxInt : List Int → Int
  | [] => 0
  | x :: rest => rest.foldl max x

/-- Lines 30-34: `msv` starts at 0 and is set to `max(vols)` only when the
volume list is nonempty. -/
def msvOf (svm : List (String × Int)) (kws : List String) : Int :=
  let vols := kws.map (volLookup svm)
  if vols.isEmpty then 0 else listMaxInt vols

/-- Embedding of `EnhancedLinkAnalyzer._link_status` (lines 56-62): empty
source or destination gives `""`; otherwise `Exists` iff `links_df` holds a
row with exactly that (Source, Destination) pair, else `Missing`. -/
def link_status (links : List (String × String))
    (source destination : String) : String :=
  if source = "" ∨ destination = "" then ""
  else if links.contains (source, destination) then "Exists" else "Missing"

/-- An output row of `analyze_with_performance_data`: the five base columns
plus `top_related` slot pairs (`Related URL i`, `URL i Status`). -/
structure OppRow where
  target_url : String
  queries : Int
  clicks : Int
  impressions : Int
  monthly_search_volume : Int
  related : List (String × String)
deriving Repr, DecidableEq

/-- Embedding of `EnhancedLinkAnalyzer.analyze_with_performance_data`
(link_analyzer.py lines 8-54).  `links` carries the (Source, Destination)
columns of `links_df`; `related_pages_map`, `svm` (search_volume_map) and
`ukm` (url_keywords_map) are the dicts as association lists.  One row per
related-pages key, in map order; slot `i` holds `related_urls[i]` when it
exists and `""` otherwise (`url_keywords_map.get(target_url, [])` likewise
defaults a missing keyword list to `[]`, also when the dict is empty). -/
def analyze_with_performance_data (links : List (String × String))
    (related_pages_map : List (String × List String))
    (gsc : List MetricRow) (svm : List (String × Int))
    (ukm : List (String × List String)) (top_related : Nat) : List OppRow :=
  related_pages_map.map (fun pr =>
    let m := metricsLookup gsc pr.1
    let kws := (ukm.lookup pr.1).getD []
    let slots := (List.range top_related).map (fun i =>
      let u := pr.2.getD i ""
      (u, link_status links pr.1 u))
    ⟨pr.1, m.queries, m.clicks, m.impressions, msvOf svm kws, slots⟩)

/-! ## Concrete data used in counterexamples and witnesses -/

/-- One page, all clicks zero, impressions 10/5/1/0 (claim C2's premise). -/
def c2Data : List GSCRecord :=
  [⟨"p", "q1", 0, 10⟩, ⟨"p", "q2", 0, 5⟩, ⟨"p", "q3", 0, 1⟩, ⟨"p", "q4", 0, 0⟩]

/-- One page with clicks [5,5,3,3,1] (the spec's dense-rank tie scenario). -/
def c4Data : List GSCRecord :=
  [⟨"p", "q1", 5, 0⟩, ⟨"p", "q2", 5, 0⟩, ⟨"p", "q3", 3, 0⟩,
   ⟨"p", "q4", 3, 0⟩, ⟨"p", "q5", 1, 0⟩]

/-- Two rows whose unrealized-opportunity column is [2, 4]: its minimum is
positive, separating division-by-max from min-max normalization. -/
def c3Rows : List PerfRow :=
  [⟨2, 0, []⟩, ⟨4, 0, []⟩]

/-! ## Helper lemmas -/

theorem le_foldl_max {α : Type} [LinearOrder α] (l : List α) (x : α) :
    x ≤ l.foldl max x := by
  induction l generalizing x with
  | nil => exact le_rfl
  | cons y t ih => exact le_trans (le_max_left x y) (ih (max x y))

theorem elem_le_foldl_max {α : Type} [LinearOrder α] (l : List α) (x v : α)
    (hv : v ∈ l) : v ≤ l.foldl max x := by
  induction l generalizing x with
  | nil => cases hv
  | cons y t ih =>
    rcases List.mem_cons.mp hv with h | h
    · subst h
      exact le_trans (le_max_right x v) (le_foldl_max t (max x v))
    · exact ih (max x y) h

theorem foldl_max_mem {α : Type} [LinearOrder α] (l : List α) (x : α) :
    l.foldl max x = x ∨ l.foldl max x ∈ l := by
  induction l generalizing x with
  | nil => exact Or.inl rfl
  | cons y t ih =>
    show t.foldl max (max x y) = x ∨ t.foldl max (max x y) ∈ y :: t
    rcases ih (max x y) with h | h
    · rw [h]
      rcases max_cases x y with ⟨he, _⟩ | ⟨he, _⟩
      · rw [he]
        exact Or.inl rfl
      · rw [he]
        exact Or.inr (List.mem_cons_self y t)
    · exact Or.inr (List.mem_cons_of_mem y h)

theorem elem_le_colMax (xs : List ℚ) (v : ℚ) (hv : v ∈ xs) : v ≤ colMax xs := by
  cases xs with
  | nil => cases hv
  | cons x t =>
    rcases List.mem_cons.mp hv with h | h
    · exact h ▸ le_foldl_max t x
    · exact elem_le_foldl_max t x v h

theorem elem_le_listMaxInt (l : List Int) (v : Int) (hv : v ∈ l) :
    v ≤ listMaxInt l := by
  cases l with
  | nil => cases hv
  | cons x t =>
    rcases List.mem_cons.mp hv with h | h
    · exact h ▸ le_foldl_max t x
    · exact elem_le_foldl_max t x v h

theorem listMaxInt_mem (l : List Int) (hl : l ≠ []) : listMaxInt l ∈ l := by
  cases l with
  | nil => exact absurd rfl hl
  | cons x t =>
    rcases foldl_max_mem t x with h | h
    · exact List.mem_cons.mpr (Or.inl h)
    · exact List.mem_cons_of_mem x h

theorem exists_nat_list_max (l : List Nat) (hl : l ≠ []) :
    ∃ v ∈ l, ∀ w ∈ l, w ≤ v := by
  cases l with
  | nil => exact absurd rfl hl
  | cons x t =>
    refine ⟨t.foldl max x, ?_, ?_⟩
    · rcases foldl_max_mem t x with h | h
      · exact List.mem_cons.mpr (Or.inl h)
      · exact List.mem_cons_of_mem x h
    · intro w hw
      rcases List.mem_cons.mp hw with h | h
      · exact h ▸ le_foldl_max t x
      · exact elem_le_foldl_max t x w h

theorem denseRankDesc_eq_one (vs : List Nat) (v : Nat)
    (h : ∀ w ∈ vs, w ≤ v) : denseRankDesc vs v = 1 := by
  unfold denseRankDesc
  have hf : vs.filter (fun w => v < w) = [] := by
    rw [List.filter_eq_nil_iff]
    intro w hw
    simpa using not_lt.mpr (h w hw)
  rw [hf]
  rfl

theorem mem_pageClicks (data : List GSCRecord) (r : GSCRecord) (hr : r ∈ data) :
    r.clicks ∈ pageClicks data r.page := by
  unfold pageClicks
  exact List.mem_map.mpr ⟨r, List.mem_filter.mpr ⟨hr, by simp⟩, rfl⟩

theorem pageClicks_all_zero (data : List GSCRecord) (p : String)
    (hz : ∀ r ∈ data, r.clicks = 0) : ∀ w ∈ pageClicks data p, w = 0 := by
  intro w hw
  unfold pageClicks at hw
  rcases List.mem_map.mp hw with ⟨s, hs, hw'⟩
  exact hw' ▸ hz s (List.mem_filter.mp hs).1

theorem clicksRank_eq_one_of_all_zero (data : List GSCRecord)
    (hz : ∀ r ∈ data, r.clicks = 0) (r : GSCRecord) :
    clicksRank data r = 1 := by
  unfold clicksRank
  exact denseRankDesc_eq_one _ _ (fun w hw => by
    rw [pageClicks_all_zero data r.page hz w hw]
    exact Nat.zero_le _)

theorem topClicks_ne_nil (data : List GSCRecord) (top_n : Nat)
    (h1 : 1 ≤ top_n) (hne : data ≠ []) :
    data.filter (fun r => clicksRank data r ≤ top_n) ≠ [] := by
  obtain ⟨r, hr⟩ := List.exists_mem_of_ne_nil data hne
  have hpc : pageClicks data r.page ≠ [] :=
    List.ne_nil_of_mem (mem_pageClicks data r hr)
  obtain ⟨v, hv, hvmax⟩ := exists_nat_list_max _ hpc
  rcases List.mem_map.mp hv with ⟨s, hs, hsv⟩
  have hs' : s ∈ data := (List.mem_filter.mp hs).1
  have hpage : s.page = r.page := by
    simpa using (List.mem_filter.mp hs).2
  have hrank : clicksRank data s = 1 := by
    unfold clicksRank
    rw [hpage]
    exact denseRankDesc_eq_one _ _ (fun w hw => hsv ▸ hvmax w hw)
  apply List.ne_nil_of_mem (a := s)
  exact List.mem_filter.mpr ⟨hs', by simp [hrank, h1]⟩

/-! ## Claims C2 and C4: extract_top_keywords_by_url -/

/-- C2, counterexample: with all clicks zero (no record has clicks > 0) the
clicks ranking gives every record dense rank 1, `top_clicks` is not empty, so
the impressions fallback never runs: the code returns all four queries, while
the claimed impressions-descending dense-rank-top-3 selection would return
only the three with positive rank ≤ 3. -/
theorem extract_top_keywords_fallback_cex :
    c2Data.all (fun r => r.clicks == 0) = true ∧
    extract_top_keywords_by_url c2Data 3 "p" = ["q1", "q2", "q3", "q4"] ∧
    specImpressionsSelection c2Data 3 "p" = ["q1", "q2", "q3"] ∧
    extract_top_keywords_by_url c2Data 3 "p" ≠
      specImpressionsSelection c2Data 3 "p" := by
  refine ⟨by decide, by decide, by decide, by decide⟩

/-- C2 (amended): when no record in the dataset has clicks greater than zero
and `top_n ≥ 1`, every record ties at clicks dense rank 1, so the clicks
selection is the whole dataset and no impressions fallback occurs: each
page's keyword list is all of its (non-empty) queries in input order. -/
theorem extract_top_keywords_all_zero_clicks (data : List GSCRecord)
    (top_n : Nat) (page : String) (hz : ∀ r ∈ data, r.clicks = 0)
    (h1 : 1 ≤ top_n) :
    extract_top_keywords_by_url data top_n page =
      ((data.filter (fun r => r.page = page)).map (·.query)).filter
        (fun q => q ≠ "") := by
  have htc : data.filter (fun r => clicksRank data r ≤ top_n) = data := by
    apply List.filter_eq_self.mpr
    intro r _
    simp [clicksRank_eq_one_of_all_zero data hz r, h1]
  simp only [extract_top_keywords_by_url, htc]
  cases hd : data.isEmpty with
  | false => simp
  | true =>
    have h0 : data = [] := List.isEmpty_iff.mp hd
    subst h0
    simp

/-- Witness for the amended C2 at the concrete all-zero-clicks dataset. -/
theorem extract_top_keywords_all_zero_clicks_witness :
    extract_top_keywords_by_url c2Data 3 "p" =
      ((c2Data.filter (fun r => r.page = "p")).map (·.query)).filter
        (fun q => q ≠ "") :=
  extract_top_keywords_all_zero_clicks c2Data 3 "p" (by decide) (by decide)

/-- C4, counterexample: for clicks [5,5,3,3,1] and top_n = 2, dense rank ≤ 2
keeps the rank-2 records (clicks = 3) as well, so the code returns four
queries, not exactly the two with clicks = 5. -/
theorem extract_top_keywords_tie_cex :
    extract_top_keywords_by_url c4Data 2 "p" = ["q1", "q2", "q3", "q4"] ∧
    extract_top_keywords_by_url c4Data 2 "p" ≠ ["q1", "q2"] := by
  refine ⟨by decide, by decide⟩

/-- C4 (amended): each page's queries are dense-ranked by clicks descending
and every record of dense rank ≤ top_n is selected (for top_n ≥ 1 on
non-empty data the fallback never runs), so ties share a rank and the list
can exceed top_n; for clicks [5,5,3,3,1] and top_n = 2 the four queries with
clicks in {5,3} are returned (length 4 > 2). -/
theorem extract_top_keywords_dense_rank (data : List GSCRecord) (top_n : Nat)
    (page : String) (h1 : 1 ≤ top_n) (hne : data ≠ []) :
    extract_top_keywords_by_url data top_n page =
      (((data.filter (fun r => clicksRank data r ≤ top_n)).filter
          (fun r => r.page = page)).map (·.query)).filter (fun q => q ≠ "") ∧
    extract_top_keywords_by_url c4Data 2 "p" = ["q1", "q2", "q3", "q4"] ∧
    2 < (extract_top_keywords_by_url c4Data 2 "p").length := by
  refine ⟨?_, by decide, by decide⟩
  have hne' := topClicks_ne_nil data top_n h1 hne
  simp only [extract_top_keywords_by_url]
  cases hd : (data.filter (fun r => clicksRank data r ≤ top_n)).isEmpty with
  | false => simp
  | true => exact absurd (List.isEmpty_iff.mp hd) hne'

/-- Witness for the amended C4 at the spec's tie scenario. -/
theorem extract_top_keywords_dense_rank_witness :
    extract_top_keywords_by_url c4Data 2 "p" =
      (((c4Data.filter (fun r => clicksRank c4Data r ≤ 2)).filter
          (fun r => r.page = "p")).map (·.query)).filter (fun q => q ≠ "") :=
  (extract_top_keywords_dense_rank c4Data 2 "p" (by decide) (by decide)).1

/-! ## Claims C3, C7, C9: score_opportunities -/

theorem normCol_unit (xs : List ℚ) (v : ℚ) (hv : v ∈ xs) (h0 : 0 ≤ v) :
    0 ≤ normCol xs v ∧ normCol xs v ≤ 1 := by
  unfold normCol
  by_cases hm : 0 < colMax xs
  · rw [if_pos hm]
    exact ⟨div_nonneg h0 hm.le, (div_le_one hm).mpr (elem_le_colMax xs v hv)⟩
  · rw [if_neg hm]
    have hv0 : v = 0 :=
      le_antisymm (le_trans (elem_le_colMax xs v hv) (not_lt.mp hm)) h0
    simp [hv0]

theorem ctrOf_nonneg (r : PerfRow) (hi : 0 ≤ r.impressions)
    (hc : 0 ≤ r.clicks) : 0 ≤ ctrOf r := by
  unfold ctrOf
  by_cases h : r.impressions = 0
  · simp [h]
  · simp only [h, if_false, Option.map_some, Option.getD_some]
    exact div_nonneg hc hi

theorem oppOf_nonneg (r : PerfRow) : 0 ≤ oppOf r :=
  le_max_right _ _

/-- C3, counterexample: rows whose unrealized-opportunity column is [2, 4]
(minimum positive).  The code divides by the maximum, scoring the first row
0.6·(2/4) + 0.4·(1-0) = 7/10, while min-max normalization would score it
0.6·((2-2)/(4-2)) + 0.4·(1-0) = 2/5: the columns are not min-max normalized. -/
theorem score_minmax_cex :
    (score_opportunities c3Rows).map (·.oppScore) = [7/10, 1] ∧
    specMinMaxScores c3Rows = [2/5, 1] ∧
    (score_opportunities c3Rows).map (·.oppScore) ≠ specMinMaxScores c3Rows := by
  have h1 : (score_opportunities c3Rows).map (·.oppScore) = [7/10, 1] := by
    simp [score_opportunities, c3Rows, normCol, colMax, oppOf, ctrOf]
    norm_num [max_def]
  have h2 : specMinMaxScores c3Rows = [2/5, 1] := by
    simp [specMinMaxScores, c3Rows, specMinMaxNorm, colMax, oppOf, ctrOf]
    norm_num [max_def, min_def]
  refine ⟨h1, h2, ?_⟩
  rw [h1, h2]
  norm_num

/-- C3 (amended): for every row set, `unrealized_opportunity` and `ctr` are
each normalized by dividing by the column maximum (not by min-max) before
being combined; for non-negative clicks and impressions the normalized
values lie in [0,1], and whenever a column's maximum is 0 the normalization
is the identity, so no division error occurs. -/
theorem score_opportunities_normalization (rows : List PerfRow)
    (hpos : ∀ r ∈ rows, 0 ≤ r.impressions ∧ 0 ≤ r.clicks) :
    ((score_opportunities rows).map (·.oppScore) =
      rows.map (fun r =>
        3/5 * normCol (rows.map oppOf) (oppOf r) +
        2/5 * (1 - normCol (rows.map ctrOf) (ctrOf r)))) ∧
    (∀ r ∈ rows,
      0 ≤ normCol (rows.map oppOf) (oppOf r) ∧
      normCol (rows.map oppOf) (oppOf r) ≤ 1 ∧
      0 ≤ normCol (rows.map ctrOf) (ctrOf r) ∧
      normCol (rows.map ctrOf) (ctrOf r) ≤ 1) ∧
    (∀ (xs : List ℚ) (v : ℚ), colMax xs = 0 → normCol xs v = v) := by
  refine ⟨?_, ?_, ?_⟩
  · cases hd : rows.isEmpty with
    | true =>
      have h0 : rows = [] := List.isEmpty_iff.mp hd
      subst h0
      rfl
    | false => simp [score_opportunities, hd, List.map_map]
  · intro r hr
    obtain ⟨ho1, ho2⟩ := normCol_unit (rows.map oppOf) (oppOf r)
      (List.mem_map_of_mem oppOf hr) (oppOf_nonneg r)
    obtain ⟨hc1, hc2⟩ := normCol_unit (rows.map ctrOf) (ctrOf r)
      (List.mem_map_of_mem ctrOf hr)
      (ctrOf_nonneg r (hpos r hr).1 (hpos r hr).2)
    exact ⟨ho1, ho2, hc1, hc2⟩
  · intro xs v h
    simp [normCol, h]

/-- Witness for the amended C3 at the concrete two-row table. -/
theorem score_opportunities_normalization_witness :
    (score_opportunities c3Rows).map (·.oppScore) =
      c3Rows.map (fun r =>
        3/5 * normCol (c3Rows.map oppOf) (oppOf r) +
        2/5 * (1 - normCol (c3Rows.map ctrOf) (ctrOf r))) :=
  (score_opportunities_normalization c3Rows (by
    intro r hr
    simp only [c3Rows, List.mem_cons, List.mem_singleton] at hr
    rcases hr with h | h | h
    · subst h
      exact ⟨by norm_num, by norm_num⟩
    · subst h
      exact ⟨by norm_num, by norm_num⟩
    · cases h)).1

/-- C7 (confirmed): for every row, ctr is clicks/impressions when impressions
is non-zero and 0 when impressions is 0 (the `replace(0, nan)`/`fillna(0)`
pipeline never divides by zero), and a row with impressions = 0 and
clicks = 0 still appears in the scored output. -/
theorem ctr_zero_guard (rows : List PerfRow) :
    (∀ r ∈ rows, (r.impressions = 0 → ctrOf r = 0) ∧
      (r.impressions ≠ 0 → ctrOf r = r.clicks / r.impressions)) ∧
    (∀ r ∈ rows, r.impressions = 0 → r.clicks = 0 →
      ∃ s ∈ score_opportunities rows, s.row = r) := by
  constructor
  · intro r _
    constructor
    · intro h
      simp [ctrOf, h]
    · intro h
      simp [ctrOf, h]
  · intro r hr _ _
    have hd : rows.isEmpty = false :=
      List.isEmpty_eq_false.mpr (List.ne_nil_of_mem hr)
    simp only [score_opportunities, hd, Bool.false_eq_true, if_false]
    exact ⟨_, List.mem_map_of_mem _ hr, rfl⟩

/-- Witness for C7: the zero-impression, zero-click row is scored. -/
theorem ctr_zero_guard_witness :
    ∃ s ∈ score_opportunities [(⟨0, 0, []⟩ : PerfRow)], s.row = ⟨0, 0, []⟩ :=
  (ctr_zero_guard [⟨0, 0, []⟩]).2 ⟨0, 0, []⟩ (by simp) rfl rfl

/-- C9 (confirmed): `score_opportunities` does not mutate its input — the
output keeps the same rows in the same order with every original column
unchanged (the `row` component of each `ScoredRow`; `OppScore` and
`Implementation Priority` are the only additions, by the shape of
`ScoredRow`), and an empty input is returned unchanged. -/
theorem score_opportunities_frame (rows : List PerfRow) :
    (score_opportunities rows).map (·.row) = rows ∧
    (rows = [] → score_opportunities rows = []) := by
  constructor
  · cases hd : rows.isEmpty with
    | true =>
      have h0 : rows = [] := List.isEmpty_iff.mp hd
      subst h0
      rfl
    | false =>
      simp only [score_opportunities, hd, Bool.false_eq_true, if_false,
        List.map_map]
      exact List.map_id rows
  · intro h
    subst h
    rfl

/-- Witness for C9 on a one-row table and the empty table. -/
theorem score_opportunities_frame_witness :
    (score_opportunities [(⟨1, 2, [("Anchor", "x")]⟩ : PerfRow)]).map (·.row) =
      [⟨1, 2, [("Anchor", "x")]⟩] ∧
    score_opportunities [] = [] :=
  ⟨(score_opportunities_frame [⟨1, 2, [("Anchor", "x")]⟩]).1,
   (score_opportunities_frame []).2 rfl⟩

/-! ## Claims C8 and C10: compute_related_pages -/

theorem argsortDesc_perm (n : Nat) (simRow : Nat → ℚ) :
    (argsortDesc n simRow).Perm (List.range n) :=
  List.perm_insertionSort _ _

theorem argsortDesc_nodup (n : Nat) (simRow : Nat → ℚ) :
    (argsortDesc n simRow).Nodup :=
  ((argsortDesc_perm n simRow).symm).nodup (List.nodup_range n)

theorem mem_argsortDesc (n : Nat) (simRow : Nat → ℚ) (j : Nat) :
    j ∈ argsortDesc n simRow ↔ j < n := by
  rw [(argsortDesc_perm n simRow).mem_iff, List.mem_range]

theorem selectLoop_eq (urls : List String) (i top_k : Nat) (l : List Nat)
    (len : Nat) :
    selectLoop urls i top_k l len =
      ((l.filter (fun j => j ≠ i)).take (max (top_k - len) 1)).map
        (fun j => urls.getD j "") := by
  induction l generalizing len with
  | nil => simp [selectLoop]
  | cons j rest ih =>
    by_cases hj : j = i
    · simp [selectLoop, hj, ih len]
    · by_cases hk : top_k ≤ len + 1
      · have h1 : max (top_k - len) 1 = 1 := by omega
        simp [selectLoop, hj, hk, h1]
      · have h2 : max (top_k - len) 1 = max (top_k - (len + 1)) 1 + 1 := by
          omega
        simp [selectLoop, hj, hk, ih (len + 1), h2]

theorem compute_related_pages_getElem? (urls : List String)
    (sim : Nat → Nat → ℚ) (top_k i : Nat) :
    (compute_related_pages urls sim top_k)[i]? =
      urls[i]?.map (fun u =>
        (u, selectLoop urls i top_k (argsortDesc urls.length (sim i)) 0)) := by
  simp only [compute_related_pages, List.getElem?_map, List.getElem?_enum,
    Option.map_map]
  rfl

/-- C8, counterexample: the loop appends before testing
`len(candidates) >= top_k`, so with `top_k = 0` and two pages the neighbor
list of page `a` holds one URL, not `min 0 (2 - 1) = 0` — the length formula
of the claim fails for `k = 0`. -/
theorem related_pages_topk_zero_cex :
    (compute_related_pages ["a", "b"] (fun _ _ => (0 : ℚ)) 0)[0]? =
      some ("a", ["b"]) ∧
    (["b"] : List String).length ≠
      min 0 ((["a", "b"] : List String).length - 1) := by
  exact ⟨by decide, by decide⟩

/-- C8 (amended): for every `top_k ≥ 1`, a page never appears in its own
neighbor list and the list's length is `min top_k (number of other pages)`
(the claim fails only at `top_k = 0`, where the append-then-test loop still
emits one neighbor). -/
theorem related_pages_self_excluded_length (urls : List String)
    (sim : Nat → Nat → ℚ) (top_k i : Nat) (u : String) (cands : List String)
    (hk : 1 ≤ top_k) (hnd : urls.Nodup)
    (h : (compute_related_pages urls sim top_k)[i]? = some (u, cands)) :
    u ∉ cands ∧ cands.length = min top_k (urls.length - 1) := by
  rw [compute_related_pages_getElem?] at h
  cases hu : urls[i]? with
  | none =>
    rw [hu] at h
    cases h
  | some u0 =>
    rw [hu] at h
    simp only [Option.map_some', Option.some.injEq, Prod.mk.injEq] at h
    obtain ⟨hu0, hcands⟩ := h
    have hi : i < urls.length := by
      rcases List.getElem?_eq_some.mp hu with ⟨hlt, -⟩
      exact hlt
    have hui : u = urls[i] := by
      rcases List.getElem?_eq_some.mp hu with ⟨hlt, hval⟩
      rw [← hu0, hval]
    have hfl : ((argsortDesc urls.length (sim i)).filter
        (fun j => j ≠ i)).length = urls.length - 1 := by
      have hperm := (argsortDesc_perm urls.length (sim i)).filter
        (fun j => decide (j ≠ i))
      rw [hperm.length_eq]
      have hcongr : (List.range urls.length).filter (fun j => decide (j ≠ i)) =
          (List.range urls.length).filter (fun x => x != i) :=
        List.filter_congr (fun a _ => by by_cases h : a = i <;> simp [h, bne])
      rw [hcongr, ← List.Nodup.erase_eq_filter (List.nodup_range urls.length) i,
        List.length_erase_of_mem (List.mem_range.mpr hi), List.length_range]
    have hmax : max (top_k - 0) 1 = top_k := by omega
    constructor
    · intro hmem
      rw [← hcands, selectLoop_eq] at hmem
      rcases List.mem_map.mp hmem with ⟨j, hj, hgd⟩
      have hj1 := List.mem_of_mem_take hj
      rw [List.mem_filter] at hj1
      have hjn : j < urls.length :=
        (mem_argsortDesc urls.length (sim i) j).mp hj1.1
      have hji : j ≠ i := of_decide_eq_true hj1.2
      apply hji
      rw [List.getD_eq_getElem urls "" hjn, hui] at hgd
      exact (List.Nodup.getElem_inj_iff hnd).mp hgd
    · rw [← hcands, selectLoop_eq, List.length_map, List.length_take, hmax,
        hfl]

/-- Witness for the amended C8: three pages, `top_k = 2`. -/
theorem related_pages_self_excluded_length_witness :
    "a" ∉ (["c", "b"] : List String) ∧
    (["c", "b"] : List String).length =
      min 2 ((["a", "b", "c"] : List String).length - 1) :=
  related_pages_self_excluded_length ["a", "b", "c"] (fun _ j => (j : ℚ)) 2 0
    "a" ["c", "b"] (by decide) (by decide) (by decide)

/-- C10 (confirmed): the result of `compute_related_pages` has exactly the
embedding map's URLs as keys, in order (every page gets an entry, possibly
with an empty neighbor list), and every URL appearing in any neighbor list
is itself a key of the input map. -/
theorem related_pages_keys (urls : List String) (sim : Nat → Nat → ℚ)
    (top_k : Nat) :
    ((compute_related_pages urls sim top_k).map Prod.fst = urls) ∧
    (∀ p cs, (p, cs) ∈ compute_related_pages urls sim top_k →
      ∀ v ∈ cs, v ∈ urls) := by
  constructor
  · rw [compute_related_pages, List.map_map]
    exact List.enum_map_snd urls
  · intro p cs hmem v hv
    simp only [compute_related_pages, List.mem_map] at hmem
    obtain ⟨iu, -, heq⟩ := hmem
    cases heq
    rw [selectLoop_eq] at hv
    rcases List.mem_map.mp hv with ⟨j, hj, hgd⟩
    have hj1 := List.mem_of_mem_take hj
    rw [List.mem_filter] at hj1
    have hjn : j < urls.length :=
      (mem_argsortDesc urls.length (sim iu.1) j).mp hj1.1
    rw [← hgd, List.getD_eq_getElem urls "" hjn]
    exact List.getElem_mem hjn

/-- Witness for C10 on two pages. -/
theorem related_pages_keys_witness :
    ((compute_related_pages ["a", "b"] (fun _ _ => (0 : ℚ)) 5).map Prod.fst =
      ["a", "b"]) ∧ ("b" : String) ∈ (["a", "b"] : List String) :=
  ⟨(related_pages_keys ["a", "b"] (fun _ _ => (0 : ℚ)) 5).1,
   (related_pages_keys ["a", "b"] (fun _ _ => (0 : ℚ)) 5).2 "a" ["b"]
     (by decide) "b" (by decide)⟩

/-! ## Claims C5 and C6: analyze_with_performance_data -/

theorem link_status_eq (links : List (String × String)) (s d : String) :
    link_status links s d =
      if s = "" ∨ d = "" then ""
      else if (s, d) ∈ links then "Exists" else "Missing" := by
  unfold link_status
  by_cases he : s = "" ∨ d = ""
  · rw [if_pos he, if_pos he]
  · rw [if_neg he, if_neg he]
    by_cases hm : (s, d) ∈ links
    · rw [if_pos (List.elem_iff.mpr hm), if_pos hm]
    · rw [if_neg (fun hc => hm (List.elem_iff.mp hc)), if_neg hm]

/-- C5 (confirmed): each output row of `analyze_with_performance_data` has
exactly `top_related` neighbor slots; slot `i` holds the i-th neighbor URL
(empty string when the page has fewer neighbors), and its status is
`Exists` when a (source=page, destination=neighbor) edge is present in
`links_df`, `Missing` when absent, and the empty string when either
endpoint is empty. -/
theorem analyze_slots (links : List (String × String))
    (rpm : List (String × List String)) (gsc : List MetricRow)
    (svm : List (String × Int)) (ukm : List (String × List String))
    (k j : Nat) (url : String) (rel : List String)
    (h : rpm[j]? = some (url, rel)) :
    ∃ row : OppRow,
      (analyze_with_performance_data links rpm gsc svm ukm k)[j]? = some row ∧
      row.related.length = k ∧
      ∀ i < k, row.related[i]? = some (rel.getD i "",
        if url = "" ∨ rel.getD i "" = "" then ""
        else if (url, rel.getD i "") ∈ links then "Exists" else "Missing") := by
  refine ⟨⟨url, (metricsLookup gsc url).queries, (metricsLookup gsc url).clicks,
    (metricsLookup gsc url).impressions, msvOf svm ((ukm.lookup url).getD []),
    (List.range k).map (fun i => (rel.getD i "",
      link_status links url (rel.getD i "")))⟩, ?_, ?_, ?_⟩
  · rw [analyze_with_performance_data, List.getElem?_map, h, Option.map_some']
  · rw [List.length_map, List.length_range]
  · intro i hi
    rw [List.getElem?_map, List.getElem?_range hi, Option.map_some',
      link_status_eq]

/-- Witness for C5 at the spec's link-status scenario:
LinkEdges = [(A,B)], related map = {A : [B, C]}, two slots. -/
theorem analyze_slots_witness :
    ∃ row : OppRow,
      (analyze_with_performance_data [("A", "B")] [("A", ["B", "C"])] [] [] []
        2)[0]? = some row ∧
      row.related.length = 2 ∧
      ∀ i < 2, row.related[i]? = some ((["B", "C"] : List String).getD i "",
        if ("A" : String) = "" ∨ (["B", "C"] : List String).getD i "" = ""
        then ""
        else if ("A", (["B", "C"] : List String).getD i "") ∈
            ([("A", "B")] : List (String × String)) then "Exists"
        else "Missing") :=
  analyze_slots [("A", "B")] [("A", ["B", "C"])] [] [] [] 2 0 "A" ["B", "C"]
    (by decide)

/-- C6 (confirmed): each keyword is looked up in the volume map by its
lower-cased form first, then by its original casing, then defaults to 0; the
page's Monthly Search Volume is the maximum single-keyword volume (an upper
bound of all keyword volumes that is attained by one of them), and a page
with no keywords resolves to 0. -/
theorem analyze_volume (links : List (String × String))
    (rpm : List (String × List String)) (gsc : List MetricRow)
    (svm : List (String × Int)) (ukm : List (String × List String))
    (k j : Nat) (url : String) (rel : List String)
    (h : rpm[j]? = some (url, rel)) :
    ∃ row : OppRow,
      (analyze_with_performance_data links rpm gsc svm ukm k)[j]? = some row ∧
      ((ukm.lookup url).getD [] = [] → row.monthly_search_volume = 0) ∧
      (∀ kw ∈ (ukm.lookup url).getD [],
        volLookup svm kw ≤ row.monthly_search_volume) ∧
      ((ukm.lookup url).getD [] ≠ [] →
        ∃ kw ∈ (ukm.lookup url).getD [],
          row.monthly_search_volume = volLookup svm kw) ∧
      (∀ kw : String,
        (∀ v : Int, svm.lookup kw.toLower = some v → volLookup svm kw = v) ∧
        (svm.lookup kw.toLower = none →
          volLookup svm kw = (svm.lookup kw).getD 0)) := by
  refine ⟨⟨url, (metricsLookup gsc url).queries, (metricsLookup gsc url).clicks,
    (metricsLookup gsc url).impressions, msvOf svm ((ukm.lookup url).getD []),
    (List.range k).map (fun i => (rel.getD i "",
      link_status links url (rel.getD i "")))⟩, ?_, ?_, ?_, ?_, ?_⟩
  · rw [analyze_with_performance_data, List.getElem?_map, h, Option.map_some']
  · intro hk
    simp [msvOf, hk]
  · intro kw hkw
    have hne : ((ukm.lookup url).getD []).map (volLookup svm) ≠ [] := by
      simp only [ne_eq, List.map_eq_nil_iff]
      exact List.ne_nil_of_mem hkw
    simp only [msvOf, List.isEmpty_eq_false.mpr hne, Bool.false_eq_true,
      if_false]
    exact elem_le_listMaxInt _ _ (List.mem_map_of_mem (volLookup svm) hkw)
  · intro hk
    have hne : ((ukm.lookup url).getD []).map (volLookup svm) ≠ [] := by
      simp only [ne_eq, List.map_eq_nil_iff]
      exact hk
    simp only [msvOf, List.isEmpty_eq_false.mpr hne, Bool.false_eq_true,
      if_false]
    have hmem := listMaxInt_mem _ hne
    rcases List.mem_map.mp hmem with ⟨kw, hkw, hval⟩
    exact ⟨kw, hkw, hval.symm⟩
  · intro kw
    constructor
    · intro v hv
      simp [volLookup, hv]
    · intro hv
      simp [volLookup, hv]

/-- Witness for C6: keyword "KW" resolves through its lower-cased key, the
page volume is the maximum (9), not the sum. -/
theorem analyze_volume_witness :
    ∃ row : OppRow,
      (analyze_with_performance_data [] [("A", ["B"])] []
        [("kw", 5), ("other", 9)] [("A", ["KW", "other"])] 1)[0]? =
        some row ∧
      ((([("A", ["KW", "other"])] :
          List (String × List String)).lookup "A").getD [] ≠ [] →
        ∃ kw ∈ (([("A", ["KW", "other"])] :
            List (String × List String)).lookup "A").getD [],
          row.monthly_search_volume =
            volLookup [("kw", 5), ("other", 9)] kw) := by
  obtain ⟨row, h1, -, -, h4, -⟩ :=
    analyze_volume [] [("A", ["B"])] [] [("kw", 5), ("other", 9)]
      [("A", ["KW", "other"])] 1 0 "A" ["B"] (by decide)
  exact ⟨row, h1, h4⟩
